import Mathlib

/-!
Shallow embedding of the session/dialogue orchestration logic of the
outbound-call AI agent (src/src/ai_agent/agent.py) together with the
pure parts of its adapters (src/src/integrations/gigachat_client.py,
src/src/integrations/qdrant_client.py, src/src/integrations/voximplant_client.py).

Python strings are modelled as Lean `String` (sequences of Unicode code
points, matching Python's code-point semantics for `len`, slicing and
substring membership).  Python `str.lower` is modelled on the character
ranges that occur in this code base (ASCII letters and the Russian
Cyrillic block, including Ё).  Floating-point confidence scores are
modelled as exact rationals; the program only ever stores and compares
the literals 0.8, 0.9 and 0.5, so no floating-point arithmetic is lost.
External backends (GigaChat generation, Salute Speech, Voximplant,
Qdrant search) are modelled as oracle functions in an `Env` record;
their observable invocations are recorded as an effect trace.
-/

/-- Lower-case a character the way Python `str.lower` does on the
alphabets used by this program: ASCII `A`-`Z`, Cyrillic `А`-`Я`
(U+0410..U+042F, mapped by +0x20) and `Ё` (U+0401 to U+0451). -/
def lowerChar (c : Char) : Char :=
  if c.toNat = 0x401 then Char.ofNat 0x451
  else if 0x410 ≤ c.toNat ∧ c.toNat ≤ 0x42F then Char.ofNat (c.toNat + 0x20)
  else if 0x41 ≤ c.toNat ∧ c.toNat ≤ 0x5A then Char.ofNat (c.toNat + 0x20)
  else c

/-- Python `s.lower()`, as a list of characters. -/
def pyLower (s : String) : List Char :=
  s.data.map lowerChar

/-- Boolean prefix test on character lists. -/
def charsPrefix : List Char → List Char → Bool
  | [], _ => true
  | _ :: _, [] => false
  | a :: as, b :: bs => a = b && charsPrefix as bs

/-- Python substring membership `needle in hay` (contiguous substring). -/
def containsSub (needle : List Char) : List Char → Bool
  | [] => needle.isEmpty
  | c :: rest => charsPrefix needle (c :: rest) || containsSub needle rest

/-- The fixed affirmative keyword list of
`GigaChatClient.analyze_response` (gigachat_client.py line 199). -/
def positive_words : List String :=
  ["да", "согласен", "принимаю", "готов", "хорошо", "ладно", "окей", "конечно"]

/-- The fixed negative keyword list (gigachat_client.py line 200). -/
def negative_words : List String :=
  ["нет", "не могу", "отказываюсь", "занят", "не готов", "не интересует"]

/-- The fixed interrogative keyword list (gigachat_client.py line 201). -/
def question_words : List String :=
  ["что", "какой", "когда", "где", "сколько", "почему", "как"]

/-- `is_positive` flag of `analyze_response` (line 203): some affirmative
word occurs as a substring of the lower-cased response. -/
def is_positive (response : String) : Bool :=
  positive_words.any fun w => containsSub w.data (pyLower response)

/-- `is_negative` flag of `analyze_response` (line 204). -/
def is_negative (response : String) : Bool :=
  negative_words.any fun w => containsSub w.data (pyLower response)

/-- `is_question` flag of `analyze_response` (line 205): an interrogative
word occurs in the lower-cased response, or a question mark occurs in the
original response. -/
def is_question (response : String) : Bool :=
  (question_words.any fun w => containsSub w.data (pyLower response))
    || containsSub ['?'] response.data

/-- Result dictionary of `analyze_response`: an intent tag and a fixed
confidence score (a Python float literal, modelled as an exact rational). -/
structure Analysis where
  intent : String
  confidence : ℚ
deriving DecidableEq, Repr

/-- `GigaChatClient.analyze_response` (gigachat_client.py lines 187-214):
case-folded keyword membership with precedence
question > accept > decline > unclear and confidences 0.8/0.9/0.9/0.5. -/
def analyze_response (response : String) : Analysis :=
  if is_question response then ⟨"question", 0.8⟩
  else if is_positive response && !(is_negative response) then ⟨"accept", 0.9⟩
  else if is_negative response && !(is_positive response) then ⟨"decline", 0.9⟩
  else ⟨"unclear", 0.5⟩

/-- `CallResult` enum (agent.py lines 17-23). -/
inductive CallResult where
  | accepted
  | declined
  | no_answer
  | error
  | in_progress
deriving DecidableEq, Repr

/-- The string value of a `CallResult` member (its Python enum value). -/
def resultValue : CallResult → String
  | .accepted => "accepted"
  | .declined => "declined"
  | .no_answer => "no_answer"
  | .error => "error"
  | .in_progress => "in_progress"

/-- `OrderInfo` dataclass (agent.py lines 26-36). -/
structure OrderInfo where
  order_id : String
  description : String
  address : String
  datetime : String
  payment : String
  additional_info : Option String
  required_skills : List String
deriving DecidableEq, Repr

/-- `ExecutorInfo` dataclass (voximplant_client.py lines 27-36); the float
rating is modelled as a rational, it is never used in any computation. -/
structure ExecutorInfo where
  executor_id : String
  name : String
  phone_number : String
  skills : List String
  rating : ℚ
  is_available : Bool
deriving DecidableEq, Repr

/-- `CallInfo` dataclass (voximplant_client.py lines 12-24); datetime
fields are modelled as opaque numeric timestamps. -/
structure CallInfo where
  call_id : String
  phone_number : String
  executor_id : String
  executor_name : String
  status : String
  started_at : Option Nat
  ended_at : Option Nat
  duration_seconds : Nat
  result : Option String
deriving DecidableEq, Repr

/-- `DialogueMessage` dataclass (gigachat_client.py lines 14-19). -/
structure DialogueMessage where
  role : String
  content : String
deriving DecidableEq, Repr

/-- The order-info dict built by the orchestrator (agent.py lines 108-114):
keys description/address/datetime/payment/additional_info. -/
structure OrderDict where
  description : String
  address : String
  datetime : String
  payment : String
  additional_info : Option String
deriving DecidableEq, Repr

/-- The executor-info dict stored in the dialogue context
(agent.py lines 120-123): keys id/name. -/
structure ExecutorBrief where
  id : String
  name : String
deriving DecidableEq, Repr

/-- `DialogueContext` dataclass (gigachat_client.py lines 22-29). -/
structure DialogueContext where
  messages : List DialogueMessage
  order_info : Option OrderDict
  executor_info : Option ExecutorBrief
  knowledge_context : Option String
deriving DecidableEq, Repr

/-- `CallSession` dataclass (agent.py lines 39-48). -/
structure CallSession where
  call_info : CallInfo
  executor : ExecutorInfo
  order : OrderInfo
  dialogue_context : DialogueContext
  result : CallResult
  turn_count : Nat
deriving DecidableEq, Repr

/-- The agent-level configuration fields used by the orchestrator
(config.py lines 86-97): agent name, company name, max dialogue turns. -/
structure Config where
  agent_name : String
  company_name : String
  max_dialogue_turns : Nat
deriving DecidableEq, Repr

/-- The orchestrator's mutable state: the `_active_sessions` dict
(agent.py line 76), modelled as an insertion-ordered association list
with unique keys, and whether an `_on_call_completed` callback is
registered (agent.py line 79). -/
structure AgentState where
  sessions : List (String × CallSession)
  has_callback : Bool
deriving DecidableEq, Repr

/-- Python `dict.get`: the value under the first (unique) matching key. -/
def mapGet (k : String) : List (String × CallSession) → Option CallSession
  | [] => none
  | (k', v) :: rest => if k' = k then some v else mapGet k rest

/-- Python `d[k] = v`: overwrite in place if present, else append. -/
def mapInsert (k : String) (v : CallSession) : List (String × CallSession) → List (String × CallSession)
  | [] => [(k, v)]
  | (k', v') :: rest => if k' = k then (k, v) :: rest else (k', v') :: mapInsert k v rest

/-- `KnowledgeDocument` dataclass (qdrant_client.py lines 12-19). -/
structure KnowledgeDocument where
  id : String
  content : String
  metadata : List (String × String)
  score : ℚ
deriving DecidableEq, Repr

/-- An observable invocation of an external adapter, recorded as a trace
event: a Voximplant call start (voximplant_client.py `start_call`), a
call end with its result tag (`end_call`), a synchronous completion
callback invocation with the session snapshot (agent.py line 289), or an
SMS send attempt with its success flag (`send_sms`). -/
inductive Effect where
  | callStart (executor : ExecutorInfo)
  | endCall (call_id : String) (result : String)
  | callback (session : CallSession)
  | sms (phone : String) (text : String) (ok : Bool)
deriving DecidableEq, Repr

/-- Oracle functions standing for the external backends: Qdrant search
results, Salute Speech STT/TTS (both may fail and return none), GigaChat
free generation, Voximplant call start (may fail and return no call
record) and SMS sending (returns a success flag). -/
structure Env where
  search : String → Nat → List KnowledgeDocument
  speech_to_text : List Nat → Option String
  text_to_speech : String → Option (List Nat)
  generate_response : DialogueContext → String → String → String
  start_call : ExecutorInfo → OrderDict → String → String → Option CallInfo
  send_sms : String → String → Bool

/-- Python slicing `s[:n]` by code points. -/
def strTake (s : String) (n : Nat) : String :=
  ⟨s.data.take n⟩

/-- The context-accumulation loop of
`QdrantKnowledgeBase.get_context_for_query` (qdrant_client.py lines
232-245).  `current_length` stays ≤ `maxLen` on every reachable call
(it starts at 0 and only grows while the guard keeps it within budget),
so Nat subtraction agrees with Python's int subtraction here. -/
def buildContextParts : List KnowledgeDocument → Nat → Nat → List String
  | [], _, _ => []
  | doc :: rest, current_length, maxLen =>
    if maxLen < current_length + doc.content.length then
      if 100 < maxLen - current_length then
        [strTake doc.content (maxLen - current_length) ++ "..."]
      else []
    else
      doc.content :: buildContextParts rest (current_length + doc.content.length) maxLen

/-- Python `sep.join(parts)` for the fixed separator of the source. -/
def joinParts : List String → String
  | [] => ""
  | [s] => s
  | s :: t :: rest => s ++ "\n\n" ++ joinParts (t :: rest)

/-- `QdrantKnowledgeBase.get_context_for_query` (qdrant_client.py lines
212-247), parametrised by the search oracle (`self.search`, which returns
`[]` both on an empty hit set and on any backend failure). -/
def get_context_for_query (search : String → Nat → List KnowledgeDocument)
    (query : String) (max_context_length : Nat) : String :=
  let documents := search query 5
  if documents.isEmpty then ""
  else joinParts (buildContextParts documents 0 max_context_length)

/-- The order dict the orchestrator builds from an `OrderInfo`
(agent.py lines 108-114). -/
def orderDict (order : OrderInfo) : OrderDict :=
  ⟨order.description, order.address, order.datetime, order.payment, order.additional_info⟩

/-- `AIAgent.call_executor` (agent.py lines 89-152): pull knowledge
context (best effort), build a fresh dialogue context, start the call via
Voximplant; on failure return none and leave the session map untouched,
on success store a fresh in-progress session under the call id. -/
def call_executor (env : Env) (cfg : Config) (st : AgentState)
    (executor : ExecutorInfo) (order : OrderInfo) :
    Option String × AgentState × List Effect :=
  let knowledge_query := order.description ++ " " ++ (order.additional_info.getD "")
  let knowledge_context := get_context_for_query env.search knowledge_query 2000
  let dc : DialogueContext :=
    ⟨[], some (orderDict order), some ⟨executor.executor_id, executor.name⟩,
      some knowledge_context⟩
  match env.start_call executor (orderDict order) cfg.agent_name cfg.company_name with
  | none => (none, st, [Effect.callStart executor])
  | some call_info =>
    let session : CallSession := ⟨call_info, executor, order, dc, CallResult.in_progress, 0⟩
    (some call_info.call_id,
      { st with sessions := mapInsert call_info.call_id session st.sessions },
      [Effect.callStart executor])

/-- The SMS text built on acceptance (agent.py lines 293-298). -/
def smsText (ord : OrderInfo) : String :=
  "Заказ #" ++ ord.order_id ++ " закреплён за вами.\n" ++
    "Адрес: " ++ ord.address ++ "\n" ++
    "Время: " ++ ord.datetime ++ "\n" ++
    "Оплата: " ++ ord.payment

/-- `AIAgent._complete_session` (agent.py lines 274-303): end the call
with the final result tag, invoke the completion callback if registered,
and if the result is accepted attempt one confirmation SMS (its success
flag is ignored).  The orchestrator state is not modified. -/
def complete_session (env : Env) (st : AgentState) (session_id : String) :
    AgentState × List Effect :=
  match mapGet session_id st.sessions with
  | none => (st, [])
  | some session =>
    let cbEff := if st.has_callback then [Effect.callback session] else []
    let smsEff :=
      if session.result = CallResult.accepted then
        [Effect.sms session.executor.phone_number (smsText session.order)
          (env.send_sms session.executor.phone_number (smsText session.order))]
      else []
    (st, Effect.endCall session_id (resultValue session.result) :: (cbEff ++ smsEff))

/-- The effective text of a turn (agent.py lines 176-180): transcribe the
audio only when no text was given (empty string when STT fails), default
to the empty string when neither is given. -/
def effectiveText (env : Env) (audio : Option (List Nat)) (txt : Option String) : String :=
  match audio, txt with
  | some a, none => (env.speech_to_text a).getD ""
  | _, some t => t
  | none, none => ""

/-- Result of `process_executor_response`: the reply text, the optional
reply audio, the updated orchestrator state and the effect trace. -/
structure ProcResult where
  response_text : String
  response_audio : Option (List Nat)
  state : AgentState
  effects : List Effect
deriving DecidableEq, Repr

/-- The per-turn session update of `AIAgent.process_executor_response`
(agent.py lines 182-221): append the caller message, increment the turn
counter, classify the intent, then in precedence order accept / decline /
turn budget / free continuation, and append the agent reply.  Returns the
updated session and the reply text. -/
def dialogueTurn (env : Env) (cfg : Config) (session : CallSession) (text : String) :
    CallSession × String :=
  let s1 : CallSession :=
    { session with
      dialogue_context :=
        { session.dialogue_context with
          messages := session.dialogue_context.messages ++ [⟨"user", text⟩] },
      turn_count := session.turn_count + 1 }
  let analysis := analyze_response text
  let branch : CallResult × String :=
    if analysis.intent = "accept" then
      (CallResult.accepted,
        "Отлично, " ++ s1.executor.name ++ "! Заказ закреплён за вами. " ++
          "Детали придут в SMS. Спасибо и хорошего дня!")
    else if analysis.intent = "decline" then
      (CallResult.declined,
        "Понимаю, " ++ s1.executor.name ++ ". Спасибо за ответ. " ++
          "Если передумаете, мы на связи. Хорошего дня!")
    else if cfg.max_dialogue_turns ≤ s1.turn_count then
      (CallResult.declined,
        "К сожалению, нам нужно завершить разговор. " ++
          "Спасибо за ваше время. До свидания!")
    else
      (s1.result, env.generate_response s1.dialogue_context cfg.agent_name cfg.company_name)
  ({ s1 with
      result := branch.1,
      dialogue_context :=
        { s1.dialogue_context with
          messages := s1.dialogue_context.messages ++ [⟨"assistant", branch.2⟩] } },
    branch.2)

/-- `AIAgent.process_executor_response` (agent.py lines 154-230): look up
the session (sentinel reply when unknown), run the dialogue turn, render
audio, and when the session is now terminal run `_complete_session`. -/
def process_executor_response (env : Env) (cfg : Config) (st : AgentState)
    (session_id : String) (audio_data : Option (List Nat))
    (text_response : Option String) : ProcResult :=
  match mapGet session_id st.sessions with
  | none => ⟨"Сессия не найдена", none, st, []⟩
  | some session =>
    let text := effectiveText env audio_data text_response
    let r := dialogueTurn env cfg session text
    let response_audio := env.text_to_speech r.2
    let st1 : AgentState := { st with sessions := mapInsert session_id r.1 st.sessions }
    if r.1.result ≠ CallResult.in_progress then
      let c := complete_session env st1 session_id
      ⟨r.2, response_audio, c.1, c.2⟩
    else
      ⟨r.2, response_audio, st1, []⟩

/-- `GigaChatClient.generate_initial_greeting` (gigachat_client.py lines
153-185), a pure template; the order dict it receives from the
orchestrator always carries the description and payment keys. -/
def giga_initial_greeting (agent_name company_name executor_name : String)
    (order_info : OrderDict) : String :=
  let greeting :=
    "Здравствуйте, " ++ executor_name ++ "! " ++
      "Это " ++ agent_name ++ " из компании \"" ++ company_name ++ "\". " ++
      "У нас есть для вас заказ: " ++ order_info.description ++ "."
  let greeting :=
    if order_info.payment ≠ "" then greeting ++ " Оплата: " ++ order_info.payment ++ "."
    else greeting
  greeting ++ " Вы готовы принять этот заказ?"

/-- `AIAgent.generate_initial_greeting` (agent.py lines 232-272): look up
the session (sentinel reply when unknown), build the greeting from agent
name, company name, executor name and the four-field order dict, append
it as an agent-side message, render audio best-effort. -/
def generate_initial_greeting (env : Env) (cfg : Config) (st : AgentState)
    (session_id : String) : (String × Option (List Nat)) × AgentState :=
  match mapGet session_id st.sessions with
  | none => (("Сессия не найдена", none), st)
  | some session =>
    let od : OrderDict :=
      ⟨session.order.description, session.order.address, session.order.datetime,
        session.order.payment, none⟩
    let greeting_text :=
      giga_initial_greeting cfg.agent_name cfg.company_name session.executor.name od
    let s1 : CallSession :=
      { session with
        dialogue_context :=
          { session.dialogue_context with
            messages := session.dialogue_context.messages ++ [⟨"assistant", greeting_text⟩] } }
    let greeting_audio := env.text_to_speech greeting_text
    ((greeting_text, greeting_audio),
      { st with sessions := mapInsert session_id s1 st.sessions })

/-- The per-batch call-start loop of `AIAgent.call_executors_for_order`
(agent.py lines 344-351): skip unavailable executors, start one call per
remaining executor, collect the truthy (non-empty) session ids. -/
def startBatch (env : Env) (cfg : Config) (order : OrderInfo) :
    AgentState → List ExecutorInfo → List String × AgentState × List Effect
  | st, [] => ([], st, [])
  | st, ex :: rest =>
    if ex.is_available = false then startBatch env cfg order st rest
    else
      let r := call_executor env cfg st ex order
      let r2 := startBatch env cfg order r.2.1 rest
      let sids :=
        match r.1 with
        | some sid => if sid = "" then r2.1 else sid :: r2.1
        | none => r2.1
      (sids, r2.2.1, r.2.2 ++ r2.2.2)

/-- The per-batch inspection loop of `AIAgent.call_executors_for_order`
(agent.py lines 355-358): the first session id whose session exists and
is accepted yields its executor. -/
def findAccepted (st : AgentState) : List String → Option ExecutorInfo
  | [] => none
  | sid :: rest =>
    match mapGet sid st.sessions with
    | some s => if s.result = CallResult.accepted then some s.executor else findAccepted st rest
    | none => findAccepted st rest

/-- The batch loop of `AIAgent.call_executors_for_order` (agent.py lines
340-358), fuelled: the executor list is consumed `w` elements at a time
(`range(0, len(executors), concurrent_calls)`); a fuel of
`executors.length` suffices whenever `1 ≤ w`. -/
def batchLoop (env : Env) (cfg : Config) (order : OrderInfo) (w : Nat) :
    Nat → AgentState → List ExecutorInfo → Option ExecutorInfo × AgentState × List Effect
  | 0, st, _ => (none, st, [])
  | _ + 1, st, [] => (none, st, [])
  | fuel + 1, st, ex :: rest =>
    let b := startBatch env cfg order st ((ex :: rest).take w)
    match findAccepted b.2.1 b.1 with
    | some e => (some e, b.2.1, b.2.2)
    | none =>
      let r := batchLoop env cfg order w fuel b.2.1 ((ex :: rest).drop w)
      (r.1, r.2.1, b.2.2 ++ r.2.2)

/-- `AIAgent.call_executors_for_order` (agent.py lines 324-360). -/
def call_executors_for_order (env : Env) (cfg : Config) (st : AgentState)
    (executors : List ExecutorInfo) (order : OrderInfo) (concurrent_calls : Nat) :
    Option ExecutorInfo × AgentState × List Effect :=
  batchLoop env cfg order concurrent_calls executors.length st executors

theorem mapGet_mapInsert_self (k : String) (v : CallSession)
    (m : List (String × CallSession)) : mapGet k (mapInsert k v m) = some v := by
  induction m with
  | nil => simp [mapInsert, mapGet]
  | cons hd tl ih =>
    obtain ⟨k', v'⟩ := hd
    by_cases h : k' = k <;> simp [mapInsert, mapGet, h, ih]

theorem mapGet_mapInsert_of_ne (k k' : String) (v : CallSession)
    (m : List (String × CallSession)) (h : ¬ k = k') :
    mapGet k' (mapInsert k v m) = mapGet k' m := by
  induction m with
  | nil => simp [mapInsert, mapGet, h]
  | cons hd tl ih =>
    obtain ⟨k0, v0⟩ := hd
    by_cases h0 : k0 = k
    · subst h0
      simp [mapInsert, mapGet, h]
    · have h' : ¬ k' = k := fun hh => h hh.symm
      by_cases h1 : k0 = k'
      · subst h1
        simp [mapInsert, mapGet, h', h0]
      · simp [mapInsert, mapGet, h0, h1, ih]

theorem mapInsert_keys (k : String) (v s : CallSession)
    (m : List (String × CallSession)) (h : mapGet k m = some s) :
    (mapInsert k v m).map Prod.fst = m.map Prod.fst := by
  induction m with
  | nil => simp [mapGet] at h
  | cons hd tl ih =>
    obtain ⟨k0, v0⟩ := hd
    by_cases h0 : k0 = k
    · simp [mapInsert, h0]
    · simp [mapGet, h0] at h
      simp [mapInsert, h0, ih h]

/-- C2: `analyze_response` is a deterministic case-folded
keyword-membership test with precedence question > accept > decline >
unclear and fixed confidences 0.8 / 0.9 / 0.9 / 0.5; in particular the
four example inputs of the spec classify as accept 0.9, decline 0.9,
question 0.8 and unclear 0.5 respectively. -/
theorem intent_classification_keyword_test :
    (∀ s : String, is_question s = true →
      analyze_response s = ⟨"question", 0.8⟩) ∧
    (∀ s : String, is_question s = false → is_positive s = true → is_negative s = false →
      analyze_response s = ⟨"accept", 0.9⟩) ∧
    (∀ s : String, is_question s = false → is_negative s = true → is_positive s = false →
      analyze_response s = ⟨"decline", 0.9⟩) ∧
    (∀ s : String, is_question s = false → is_positive s = is_negative s →
      analyze_response s = ⟨"unclear", 0.5⟩) ∧
    analyze_response "Да, хорошо, принимаю" = ⟨"accept", 0.9⟩ ∧
    analyze_response "Нет, не могу, занят" = ⟨"decline", 0.9⟩ ∧
    analyze_response "А сколько это будет?" = ⟨"question", 0.8⟩ ∧
    analyze_response "Ну наверное" = ⟨"unclear", 0.5⟩ := by
  refine ⟨?_, ?_, ?_, ?_, rfl, rfl, rfl, rfl⟩
  · intro s hq
    simp [analyze_response, hq]
  · intro s hq hp hn
    simp [analyze_response, hq, hp, hn]
  · intro s hq hn hp
    simp [analyze_response, hq, hp, hn]
  · intro s hq he
    cases hp : is_positive s <;> rw [hp] at he <;>
      simp [analyze_response, hq, hp, he.symm]

/-- C2 witness: the four general branches applied at concrete inputs. -/
theorem intent_classification_keyword_test_witness :
    analyze_response "Где вы находитесь?" = ⟨"question", 0.8⟩ ∧
    analyze_response "Да, хорошо, принимаю" = ⟨"accept", 0.9⟩ ∧
    analyze_response "Нет, не могу, занят" = ⟨"decline", 0.9⟩ ∧
    analyze_response "Ну наверное" = ⟨"unclear", 0.5⟩ :=
  ⟨intent_classification_keyword_test.1 "Где вы находитесь?" (by decide),
   intent_classification_keyword_test.2.1 "Да, хорошо, принимаю" (by decide) (by decide) (by decide),
   intent_classification_keyword_test.2.2.1 "Нет, не могу, занят" (by decide) (by decide) (by decide),
   intent_classification_keyword_test.2.2.2.1 "Ну наверное" (by decide) (by decide)⟩

/-- C10: the keyword tests are plain substring membership on the
case-folded input, not whole-word matches: any input whose lower-cased
form contains an affirmative entry (even only inside a longer word) and
no negative entry, no interrogative entry and no question mark classifies
as accept 0.9, and symmetrically for negative entries and decline. -/
theorem substring_membership_classification :
    (∀ s : String,
      (positive_words.any fun w => containsSub w.data (pyLower s)) = true →
      (negative_words.any fun w => containsSub w.data (pyLower s)) = false →
      (question_words.any fun w => containsSub w.data (pyLower s)) = false →
      containsSub ['?'] s.data = false →
      analyze_response s = ⟨"accept", 0.9⟩) ∧
    (∀ s : String,
      (negative_words.any fun w => containsSub w.data (pyLower s)) = true →
      (positive_words.any fun w => containsSub w.data (pyLower s)) = false →
      (question_words.any fun w => containsSub w.data (pyLower s)) = false →
      containsSub ['?'] s.data = false →
      analyze_response s = ⟨"decline", 0.9⟩) := by
  constructor
  · intro s hp hn hqw hqm
    simp [analyze_response, is_question, is_positive, is_negative, hp, hn, hqw, hqm]
  · intro s hn hp hqw hqm
    simp [analyze_response, is_question, is_positive, is_negative, hp, hn, hqw, hqm]

/-- C10 witness: `Сдам` contains the affirmative entry `да` only inside a
longer word and classifies as accept; `Занятно` contains the negative
entry `занят` only inside a longer word and classifies as decline. -/
theorem substring_membership_classification_witness :
    analyze_response "Сдам" = ⟨"accept", 0.9⟩ ∧
    analyze_response "Занятно" = ⟨"decline", 0.9⟩ :=
  ⟨substring_membership_classification.1 "Сдам"
      (by decide) (by decide) (by decide) (by decide),
   substring_membership_classification.2 "Занятно"
      (by decide) (by decide) (by decide) (by decide)⟩

theorem complete_session_state (env : Env) (st : AgentState) (sid : String) :
    (complete_session env st sid).1 = st := by
  unfold complete_session
  cases h : mapGet sid st.sessions <;> simp

theorem complete_session_found (env : Env) (st : AgentState) (sid : String)
    (s : CallSession) (h : mapGet sid st.sessions = some s) :
    complete_session env st sid =
      (st, Effect.endCall sid (resultValue s.result) ::
        ((if st.has_callback then [Effect.callback s] else []) ++
         (if s.result = CallResult.accepted then
           [Effect.sms s.executor.phone_number (smsText s.order)
             (env.send_sms s.executor.phone_number (smsText s.order))] else []))) := by
  unfold complete_session
  rw [h]

theorem dialogueTurn_turn_count (env : Env) (cfg : Config) (s : CallSession)
    (text : String) : (dialogueTurn env cfg s text).1.turn_count = s.turn_count + 1 := rfl

theorem dialogueTurn_executor (env : Env) (cfg : Config) (s : CallSession)
    (text : String) : (dialogueTurn env cfg s text).1.executor = s.executor := rfl

theorem dialogueTurn_order (env : Env) (cfg : Config) (s : CallSession)
    (text : String) : (dialogueTurn env cfg s text).1.order = s.order := rfl

theorem dialogueTurn_messages (env : Env) (cfg : Config) (s : CallSession)
    (text : String) :
    (dialogueTurn env cfg s text).1.dialogue_context.messages =
      s.dialogue_context.messages ++
        [⟨"user", text⟩, ⟨"assistant", (dialogueTurn env cfg s text).2⟩] := by
  unfold dialogueTurn
  dsimp only
  rw [List.append_assoc]
  rfl

theorem dialogueTurn_result (env : Env) (cfg : Config) (s : CallSession)
    (text : String) :
    (dialogueTurn env cfg s text).1.result =
      (if (analyze_response text).intent = "accept" then CallResult.accepted
       else if (analyze_response text).intent = "decline" then CallResult.declined
       else if cfg.max_dialogue_turns ≤ s.turn_count + 1 then CallResult.declined
       else s.result) := by
  unfold dialogueTurn
  dsimp only
  split_ifs <;> rfl

theorem process_response_found (env : Env) (cfg : Config) (st : AgentState)
    (sid : String) (audio : Option (List Nat)) (txt : Option String) (s : CallSession)
    (h : mapGet sid st.sessions = some s) :
    process_executor_response env cfg st sid audio txt =
      (let r := dialogueTurn env cfg s (effectiveText env audio txt)
       let st1 : AgentState := { st with sessions := mapInsert sid r.1 st.sessions }
       if r.1.result ≠ CallResult.in_progress then
         ⟨r.2, env.text_to_speech r.2, st1, (complete_session env st1 sid).2⟩
       else
         ⟨r.2, env.text_to_speech r.2, st1, []⟩) := by
  unfold process_executor_response
  rw [h]
  dsimp only
  split <;> simp [complete_session_state]

/-- A concrete environment for witnesses: empty knowledge base, failing
speech conversions, a fixed generated reply, call starts that succeed
with call id `c1`, SMS sends that succeed. -/
def testEnv : Env :=
  ⟨fun _ _ => [], fun _ => none, fun _ => none, fun _ _ _ => "Продолжим разговор",
   fun ex _ _ _ => some ⟨"c1", ex.phone_number, ex.executor_id, ex.name, "initiated",
     some 0, none, 0, none⟩,
   fun _ _ => true⟩

/-- A concrete environment whose call starts always fail. -/
def failEnv : Env :=
  ⟨fun _ _ => [], fun _ => none, fun _ => none, fun _ _ _ => "Продолжим разговор",
   fun _ _ _ _ => none, fun _ _ => true⟩

/-- A concrete environment whose SMS sends always fail. -/
def smsFailEnv : Env :=
  ⟨fun _ _ => [], fun _ => none, fun _ => none, fun _ _ _ => "Продолжим разговор",
   fun ex _ _ _ => some ⟨"c1", ex.phone_number, ex.executor_id, ex.name, "initiated",
     some 0, none, 0, none⟩,
   fun _ _ => false⟩

/-- A concrete order for witnesses. -/
def testOrder : OrderInfo :=
  ⟨"ORD-1", "Доставка документов", "ул. Ленина 1", "2024-05-01 10:00", "1000 руб", none, []⟩

/-- A concrete available executor for witnesses. -/
def testExecutor : ExecutorInfo :=
  ⟨"E1", "Иван", "+79990000001", [], 0, true⟩

/-- A concrete configuration for witnesses. -/
def testCfg : Config :=
  ⟨"Анна", "Компания", 10⟩

/-- A concrete in-progress session for witnesses. -/
def testSession : CallSession :=
  ⟨⟨"c1", "+79990000001", "E1", "Иван", "initiated", some 0, none, 0, none⟩,
   testExecutor, testOrder,
   ⟨[], some (orderDict testOrder), some ⟨"E1", "Иван"⟩, some ""⟩,
   CallResult.in_progress, 0⟩

/-- A concrete agent state holding the in-progress session. -/
def testState : AgentState :=
  ⟨[("c1", testSession)], false⟩

/-- C4: every call to `process_executor_response` whose session id is in
the session mapping increases that session's turn counter by exactly one,
regardless of which branch is taken. -/
theorem turn_counter_increments_once (env : Env) (cfg : Config) (st : AgentState)
    (sid : String) (audio : Option (List Nat)) (txt : Option String) (s : CallSession)
    (h : mapGet sid st.sessions = some s) :
    ∃ s2 : CallSession,
      mapGet sid (process_executor_response env cfg st sid audio txt).state.sessions =
        some s2 ∧
      s2.turn_count = s.turn_count + 1 := by
  rw [process_response_found env cfg st sid audio txt s h]
  dsimp only
  split <;>
    exact ⟨_, mapGet_mapInsert_self sid _ st.sessions, dialogueTurn_turn_count env cfg s _⟩

/-- C4 witness: one concrete processed turn increments the counter from 0 to 1. -/
theorem turn_counter_increments_once_witness :
    ∃ s2 : CallSession,
      mapGet "c1" (process_executor_response testEnv testCfg testState "c1" none
        (some "Привет")).state.sessions = some s2 ∧
      s2.turn_count = testSession.turn_count + 1 :=
  turn_counter_increments_once testEnv testCfg testState "c1" none (some "Привет")
    testSession rfl

/-- C5: when the telephony adapter's `start_call` returns no call record,
`call_executor` returns none and the session mapping is unchanged — the
whole orchestrator state is exactly the state before the call. -/
theorem call_start_failure_no_session (env : Env) (cfg : Config) (st : AgentState)
    (ex : ExecutorInfo) (ord : OrderInfo)
    (h : env.start_call ex (orderDict ord) cfg.agent_name cfg.company_name = none) :
    (call_executor env cfg st ex ord).1 = none ∧
    (call_executor env cfg st ex ord).2.1 = st := by
  unfold call_executor
  rw [h]
  exact ⟨rfl, rfl⟩

/-- C5 witness: a concrete failing call start leaves the state untouched. -/
theorem call_start_failure_no_session_witness :
    (call_executor failEnv testCfg testState testExecutor testOrder).1 = none ∧
    (call_executor failEnv testCfg testState testExecutor testOrder).2.1 = testState :=
  call_start_failure_no_session failEnv testCfg testState testExecutor testOrder rfl

/-- C7: `generate_initial_greeting` on an unknown session id returns the
not-found sentinel with no audio and leaves the state untouched; on a
known id it appends exactly one agent-side message, changes neither the
result nor the turn counter, and leaves the mapping's keys unchanged. -/
theorem initial_greeting_frame :
    (∀ (env : Env) (cfg : Config) (st : AgentState) (sid : String),
      mapGet sid st.sessions = none →
      generate_initial_greeting env cfg st sid = (("Сессия не найдена", none), st)) ∧
    (∀ (env : Env) (cfg : Config) (st : AgentState) (sid : String) (s : CallSession),
      mapGet sid st.sessions = some s →
      ∃ s1 : CallSession,
        mapGet sid (generate_initial_greeting env cfg st sid).2.sessions = some s1 ∧
        s1.dialogue_context.messages =
          s.dialogue_context.messages ++
            [⟨"assistant", (generate_initial_greeting env cfg st sid).1.1⟩] ∧
        s1.result = s.result ∧
        s1.turn_count = s.turn_count ∧
        (generate_initial_greeting env cfg st sid).2.sessions.map Prod.fst =
          st.sessions.map Prod.fst ∧
        (generate_initial_greeting env cfg st sid).2.has_callback = st.has_callback) := by
  constructor
  · intro env cfg st sid h
    unfold generate_initial_greeting
    rw [h]
  · intro env cfg st sid s h
    unfold generate_initial_greeting
    rw [h]
    dsimp only
    exact ⟨_, mapGet_mapInsert_self sid _ st.sessions, rfl, rfl, rfl,
      mapInsert_keys sid _ s st.sessions h, rfl⟩

/-- C7 witness: the two branches at an unknown and a known session id. -/
theorem initial_greeting_frame_witness :
    generate_initial_greeting testEnv testCfg testState "missing" =
      (("Сессия не найдена", none), testState) ∧
    (∃ s1 : CallSession,
      mapGet "c1" (generate_initial_greeting testEnv testCfg testState "c1").2.sessions =
        some s1 ∧
      s1.dialogue_context.messages =
        testSession.dialogue_context.messages ++
          [⟨"assistant", (generate_initial_greeting testEnv testCfg testState "c1").1.1⟩] ∧
      s1.result = testSession.result ∧
      s1.turn_count = testSession.turn_count ∧
      (generate_initial_greeting testEnv testCfg testState "c1").2.sessions.map Prod.fst =
        testState.sessions.map Prod.fst ∧
      (generate_initial_greeting testEnv testCfg testState "c1").2.has_callback =
        testState.has_callback) :=
  ⟨initial_greeting_frame.1 testEnv testCfg testState "missing" rfl,
   initial_greeting_frame.2 testEnv testCfg testState "c1" testSession rfl⟩

/-- A concrete already-terminal (declined) session. -/
def terminalSession : CallSession :=
  ⟨⟨"c1", "+79990000001", "E1", "Иван", "initiated", some 0, none, 0, none⟩,
   testExecutor, testOrder,
   ⟨[⟨"user", "Нет"⟩, ⟨"assistant", "Понимаю."⟩], some (orderDict testOrder),
     some ⟨"E1", "Иван"⟩, some ""⟩,
   CallResult.declined, 1⟩

/-- A concrete agent state holding the terminal session. -/
def terminalState : AgentState :=
  ⟨[("c1", terminalSession)], false⟩

/-- C1 counterexample: processing a further turn for an
already-declined session appends two messages, increments the turn
counter, and flips the result from declined to accepted on an
accept-classified input — the result transitions a second time and the
message history is mutated after termination. -/
theorem result_single_transition_counterexample :
    mapGet "c1" terminalState.sessions = some terminalSession ∧
    terminalSession.result = CallResult.declined ∧
    ∃ s2 : CallSession,
      mapGet "c1" (process_executor_response testEnv testCfg terminalState "c1" none
        (some "Да")).state.sessions = some s2 ∧
      s2.result = CallResult.accepted ∧
      s2.turn_count = terminalSession.turn_count + 1 ∧
      s2.dialogue_context.messages.length =
        terminalSession.dialogue_context.messages.length + 2 :=
  ⟨rfl, rfl, _, rfl, rfl, rfl, rfl⟩

/-- C1 (amended): a session's result starts as in-progress when
`call_executor` creates it, but `process_executor_response` has no
terminal-session guard: a further call for a session that is already
terminal still appends the caller and agent messages, increments the turn
counter, and recomputes the result from that turn's intent — in
particular an accept-classified input sets the result to accepted even if
the session was already declined. -/
theorem result_single_transition_amended :
    (∀ (env : Env) (cfg : Config) (st : AgentState) (ex : ExecutorInfo)
        (ord : OrderInfo) (ci : CallInfo),
      env.start_call ex (orderDict ord) cfg.agent_name cfg.company_name = some ci →
      ∃ s : CallSession,
        mapGet ci.call_id (call_executor env cfg st ex ord).2.1.sessions = some s ∧
        s.result = CallResult.in_progress ∧ s.turn_count = 0) ∧
    (∀ (env : Env) (cfg : Config) (st : AgentState) (sid : String)
        (audio : Option (List Nat)) (txt : Option String) (s : CallSession),
      mapGet sid st.sessions = some s →
      ∃ s2 : CallSession,
        mapGet sid (process_executor_response env cfg st sid audio txt).state.sessions =
          some s2 ∧
        s2.turn_count = s.turn_count + 1 ∧
        s2.dialogue_context.messages.length =
          s.dialogue_context.messages.length + 2 ∧
        ((analyze_response (effectiveText env audio txt)).intent = "accept" →
          s2.result = CallResult.accepted)) := by
  constructor
  · intro env cfg st ex ord ci h
    unfold call_executor
    rw [h]
    exact ⟨_, mapGet_mapInsert_self ci.call_id _ st.sessions, rfl, rfl⟩
  · intro env cfg st sid audio txt s h
    rw [process_response_found env cfg st sid audio txt s h]
    dsimp only
    split <;>
      refine ⟨_, mapGet_mapInsert_self sid _ st.sessions,
        dialogueTurn_turn_count env cfg s _, ?_, ?_⟩ <;>
      try (intro ha; rw [dialogueTurn_result]; simp [ha])
    all_goals
      rw [dialogueTurn_messages]
      simp

/-- C1 witness: session creation starts in-progress with turn 0, and a
concrete post-terminal turn with an accept-classified input. -/
theorem result_single_transition_amended_witness :
    (∃ s : CallSession,
      mapGet "c1" (call_executor testEnv testCfg ⟨[], false⟩
        testExecutor testOrder).2.1.sessions = some s ∧
      s.result = CallResult.in_progress ∧ s.turn_count = 0) ∧
    (∃ s2 : CallSession,
      mapGet "c1" (process_executor_response testEnv testCfg terminalState "c1" none
        (some "Конечно")).state.sessions = some s2 ∧
      s2.turn_count = terminalSession.turn_count + 1 ∧
      s2.dialogue_context.messages.length =
        terminalSession.dialogue_context.messages.length + 2 ∧
      ((analyze_response (effectiveText testEnv none (some "Конечно"))).intent = "accept" →
        s2.result = CallResult.accepted)) :=
  ⟨result_single_transition_amended.1 testEnv testCfg ⟨[], false⟩ testExecutor testOrder
      ⟨"c1", "+79990000001", "E1", "Иван", "initiated", some 0, none, 0, none⟩ rfl,
   result_single_transition_amended.2 testEnv testCfg terminalState "c1" none
      (some "Конечно") terminalSession rfl⟩

/-- A concrete configuration with a turn budget of one. -/
def budgetCfg : Config :=
  ⟨"Анна", "Компания", 1⟩

/-- A concrete in-progress session that has exhausted the turn budget. -/
def budgetSession : CallSession :=
  ⟨⟨"c1", "+79990000001", "E1", "Иван", "initiated", some 0, none, 0, none⟩,
   testExecutor, testOrder,
   ⟨[⟨"user", "Привет"⟩, ⟨"assistant", "Здравствуйте"⟩], some (orderDict testOrder),
     some ⟨"E1", "Иван"⟩, some ""⟩,
   CallResult.in_progress, 1⟩

/-- A concrete agent state holding the budget-exhausted session. -/
def budgetState : AgentState :=
  ⟨[("c1", budgetSession)], false⟩

/-- C3 counterexample: with the turn budget already reached and the
session in progress, a turn whose input classifies as accept yields
result = accepted, not declined — the accept branch precedes the
turn-budget check, so the forced decline is not independent of intent. -/
theorem turn_budget_intent_counterexample :
    budgetCfg.max_dialogue_turns ≤ budgetSession.turn_count ∧
    budgetSession.result = CallResult.in_progress ∧
    (analyze_response "Да, принимаю").intent = "accept" ∧
    ∃ s2 : CallSession,
      mapGet "c1" (process_executor_response testEnv budgetCfg budgetState "c1" none
        (some "Да, принимаю")).state.sessions = some s2 ∧
      s2.result = CallResult.accepted :=
  ⟨Nat.le.refl, rfl, rfl, _, rfl, rfl⟩

/-- C3 (amended): if the turn counter has reached the configured maximum
while the result is still in progress, the next processed turn terminates
the session, but not independently of intent: an input classified as
accept yields result = accepted (the accept branch is checked first),
and any other classification yields result = declined. -/
theorem turn_budget_forces_decline (env : Env) (cfg : Config) (st : AgentState)
    (sid : String) (audio : Option (List Nat)) (txt : Option String) (s : CallSession)
    (h : mapGet sid st.sessions = some s)
    (_hr : s.result = CallResult.in_progress)
    (hmax : cfg.max_dialogue_turns ≤ s.turn_count) :
    ∃ s2 : CallSession,
      mapGet sid (process_executor_response env cfg st sid audio txt).state.sessions =
        some s2 ∧
      ((analyze_response (effectiveText env audio txt)).intent ≠ "accept" →
        s2.result = CallResult.declined) ∧
      ((analyze_response (effectiveText env audio txt)).intent = "accept" →
        s2.result = CallResult.accepted) := by
  rw [process_response_found env cfg st sid audio txt s h]
  dsimp only
  split <;>
    refine ⟨_, mapGet_mapInsert_self sid _ st.sessions, ?_, ?_⟩ <;>
    intro ha <;>
    rw [dialogueTurn_result] <;>
    simp [ha, Nat.le_succ_of_le hmax]

/-- C3 witness: an unclear input at the exhausted budget yields declined. -/
theorem turn_budget_forces_decline_witness :
    ∃ s2 : CallSession,
      mapGet "c1" (process_executor_response testEnv budgetCfg budgetState "c1" none
        (some "Может быть")).state.sessions = some s2 ∧
      ((analyze_response (effectiveText testEnv none (some "Может быть"))).intent ≠ "accept" →
        s2.result = CallResult.declined) ∧
      ((analyze_response (effectiveText testEnv none (some "Может быть"))).intent = "accept" →
        s2.result = CallResult.accepted) :=
  turn_budget_forces_decline testEnv budgetCfg budgetState "c1" none (some "Может быть")
    budgetSession rfl rfl Nat.le.refl

/-- C6: completing a session ends the call with the final result tag,
synchronously invokes the completion callback exactly when one is
registered, and when the result is accepted attempts exactly one
confirmation SMS built from the order to the executor's phone number,
with the orchestrator state left unchanged; integrated into a processed
turn, an accept-classified input yields an accepted session whose effect
trace is the call end, the optional callback, and the SMS attempt, for
any SMS outcome — the accepted result never rolls back. -/
theorem completion_side_effects :
    (∀ (env : Env) (st : AgentState) (sid : String) (s : CallSession),
      mapGet sid st.sessions = some s →
      complete_session env st sid =
        (st, Effect.endCall sid (resultValue s.result) ::
          ((if st.has_callback then [Effect.callback s] else []) ++
           (if s.result = CallResult.accepted then
             [Effect.sms s.executor.phone_number (smsText s.order)
               (env.send_sms s.executor.phone_number (smsText s.order))] else [])))) ∧
    (∀ (env : Env) (cfg : Config) (st : AgentState) (sid : String)
        (audio : Option (List Nat)) (txt : Option String) (s : CallSession),
      mapGet sid st.sessions = some s →
      (analyze_response (effectiveText env audio txt)).intent = "accept" →
      ∃ s2 : CallSession,
        mapGet sid (process_executor_response env cfg st sid audio txt).state.sessions =
          some s2 ∧
        s2.result = CallResult.accepted ∧
        (process_executor_response env cfg st sid audio txt).effects =
          Effect.endCall sid "accepted" ::
            ((if st.has_callback then [Effect.callback s2] else []) ++
             [Effect.sms s.executor.phone_number (smsText s.order)
               (env.send_sms s.executor.phone_number (smsText s.order))])) := by
  constructor
  · intro env st sid s h
    exact complete_session_found env st sid s h
  · intro env cfg st sid audio txt s h ha
    rw [process_response_found env cfg st sid audio txt s h]
    dsimp only
    have hres : (dialogueTurn env cfg s (effectiveText env audio txt)).1.result =
        CallResult.accepted := by
      rw [dialogueTurn_result]
      simp [ha]
    rw [if_pos (by rw [hres]; exact fun hc => CallResult.noConfusion hc)]
    dsimp only
    refine ⟨_, mapGet_mapInsert_self sid _ st.sessions, hres, ?_⟩
    rw [complete_session_found env _ sid _ (mapGet_mapInsert_self sid _ st.sessions)]
    dsimp only
    rw [hres, dialogueTurn_executor, dialogueTurn_order]
    rfl

/-- C6 witness: a concrete accepted turn under an environment whose SMS
send fails still leaves the session accepted, and the trace records the
call end followed by the failed SMS attempt (no callback is registered). -/
theorem completion_side_effects_witness :
    ∃ s2 : CallSession,
      mapGet "c1" (process_executor_response smsFailEnv testCfg testState "c1" none
        (some "Да")).state.sessions = some s2 ∧
      s2.result = CallResult.accepted ∧
      (process_executor_response smsFailEnv testCfg testState "c1" none
        (some "Да")).effects =
        Effect.endCall "c1" "accepted" ::
          ((if testState.has_callback then [Effect.callback s2] else []) ++
           [Effect.sms testSession.executor.phone_number (smsText testSession.order)
             (smsFailEnv.send_sms testSession.executor.phone_number
               (smsText testSession.order))]) :=
  completion_side_effects.2 smsFailEnv testCfg testState "c1" none (some "Да")
    testSession rfl rfl

/-- A concrete 100-character document. -/
def docA : KnowledgeDocument :=
  ⟨"d1", ⟨List.replicate 100 'a'⟩, [], 0⟩

/-- A concrete 200-character document. -/
def docB : KnowledgeDocument :=
  ⟨"d2", ⟨List.replicate 200 'b'⟩, [], 0⟩

/-- A concrete search oracle returning the two documents above. -/
def searchCE : String → Nat → List KnowledgeDocument :=
  fun _ _ => [docA, docB]

set_option maxRecDepth 8192 in
/-- C8 counterexample: with a budget of 250 and documents of 100 and 200
characters, the second document is truncated to the 150 remaining budget
characters, but the appended ellipsis (3 characters) and the two-character
separator are not counted against the budget, so the returned context has
length 255 > 250 — the output does not stay within `max_context_length`. -/
theorem context_length_budget_counterexample :
    (get_context_for_query searchCE "запрос" 250).length = 255 ∧
    250 < (get_context_for_query searchCE "запрос" 250).length := by
  constructor
  · rfl
  · decide

theorem joinParts_length (l : List String) :
    (joinParts l).length ≤ (l.map String.length).sum + 2 * l.length := by
  induction l with
  | nil => simp [joinParts]
  | cons s tail ih =>
    cases tail with
    | nil => simp [joinParts]
    | cons t rest =>
      have hsep : ("\n\n" : String).length = 2 := rfl
      simp only [joinParts, String.length_append, List.map_cons, List.sum_cons,
        List.length_cons] at ih ⊢
      omega

theorem buildContextParts_bound (docs : List KnowledgeDocument) :
    ∀ current maxLen : Nat, current ≤ maxLen →
    ((buildContextParts docs current maxLen).map String.length).sum + current ≤
      maxLen + 3 ∧
    (buildContextParts docs current maxLen).length ≤ docs.length := by
  induction docs with
  | nil =>
    intro current maxLen h
    simp [buildContextParts]
    omega
  | cons doc rest ih =>
    intro current maxLen h
    by_cases h1 : maxLen < current + doc.content.length
    · simp only [buildContextParts, if_pos h1]
      by_cases h2 : 100 < maxLen - current
      · rw [if_pos h2]
        have htake : (strTake doc.content (maxLen - current)).length ≤ maxLen - current := by
          simp only [strTake, String.length_mk, List.length_take]
          exact Nat.min_le_left _ _
        have hell : ("..." : String).length = 3 := rfl
        simp only [String.length_append, List.map_cons, List.map_nil, List.sum_cons,
          List.sum_nil, List.length_cons, List.length_nil]
        omega
      · rw [if_neg h2]
        simp
        omega
    · simp only [buildContextParts, if_neg h1]
      have h3 : current + doc.content.length ≤ maxLen := Nat.le_of_not_lt h1
      obtain ⟨ha, hb⟩ := ih (current + doc.content.length) maxLen h3
      simp only [List.map_cons, List.sum_cons, List.length_cons]
      constructor <;> omega

/-- C8 (amended): `get_context_for_query` returns the empty string when
the underlying search yields no documents (including when the retrieval
backend fails, since `search` then returns the empty list); otherwise it
concatenates retrieved contents keeping the sum of untruncated contents
within the budget and truncating the overflowing document to the
remaining budget, but the appended three-character ellipsis and the
two-character separators between parts are not counted, so the returned
string's length is only bounded by
`max_context_length + 3 + 2 * (number of retrieved documents)`. -/
theorem context_length_budget (search : String → Nat → List KnowledgeDocument)
    (q : String) (maxLen : Nat) :
    (search q 5 = [] → get_context_for_query search q maxLen = "") ∧
    (get_context_for_query search q maxLen).length ≤
      maxLen + 3 + 2 * (search q 5).length := by
  constructor
  · intro h
    unfold get_context_for_query
    rw [h]
    rfl
  · unfold get_context_for_query
    by_cases h : (search q 5).isEmpty
    · rw [if_pos h]
      simp
    · rw [if_neg h]
      obtain ⟨ha, hb⟩ := buildContextParts_bound (search q 5) 0 maxLen (Nat.zero_le _)
      have hj := joinParts_length (buildContextParts (search q 5) 0 maxLen)
      omega

/-- C8 witness: the empty-search branch and the bound at the concrete
two-document oracle. -/
theorem context_length_budget_witness :
    get_context_for_query (fun _ _ => []) "запрос" 2000 = "" ∧
    (get_context_for_query searchCE "запрос" 250).length ≤
      250 + 3 + 2 * (searchCE "запрос" 5).length :=
  ⟨(context_length_budget (fun _ _ => []) "запрос" 2000).1 rfl,
   (context_length_budget searchCE "запрос" 250).2⟩

/-- Key `k` maps to an in-progress session in state `st`. -/
def InProgAt (st : AgentState) (k : String) : Prop :=
  ∃ s, mapGet k st.sessions = some s ∧ s.result = CallResult.in_progress

theorem call_executor_effects (env : Env) (cfg : Config) (st : AgentState)
    (ex : ExecutorInfo) (ord : OrderInfo) :
    (call_executor env cfg st ex ord).2.2 = [Effect.callStart ex] := by
  unfold call_executor
  split <;> rfl

theorem call_executor_inprog_mono (env : Env) (cfg : Config) (st : AgentState)
    (ex : ExecutorInfo) (ord : OrderInfo) (k : String) :
    InProgAt st k → InProgAt (call_executor env cfg st ex ord).2.1 k := by
  rintro ⟨s, hs, hr⟩
  unfold call_executor
  split
  · exact ⟨s, hs, hr⟩
  · next ci heq =>
    by_cases hk : ci.call_id = k
    · subst hk
      exact ⟨_, mapGet_mapInsert_self _ _ _, rfl⟩
    · exact ⟨s, by rw [mapGet_mapInsert_of_ne _ _ _ _ hk]; exact hs, hr⟩

theorem call_executor_inprog_new (env : Env) (cfg : Config) (st : AgentState)
    (ex : ExecutorInfo) (ord : OrderInfo) (sid : String) :
    (call_executor env cfg st ex ord).1 = some sid →
    InProgAt (call_executor env cfg st ex ord).2.1 sid := by
  unfold call_executor
  split
  · intro h
    simp at h
  · next ci heq =>
    intro h
    simp only [Option.some.injEq] at h
    subst h
    exact ⟨_, mapGet_mapInsert_self _ _ _, rfl⟩

theorem startBatch_inprog (env : Env) (cfg : Config) (ord : OrderInfo) :
    ∀ (batch : List ExecutorInfo) (st : AgentState),
    (∀ k, InProgAt st k → InProgAt (startBatch env cfg ord st batch).2.1 k) ∧
    (∀ sid ∈ (startBatch env cfg ord st batch).1,
      InProgAt (startBatch env cfg ord st batch).2.1 sid) := by
  intro batch
  induction batch with
  | nil =>
    intro st
    constructor
    · intro k h
      exact h
    · intro sid h
      simp [startBatch] at h
  | cons e rest ih =>
    intro st
    by_cases ha : e.is_available = false
    · constructor
      · intro k h
        simp only [startBatch, if_pos ha]
        exact (ih st).1 k h
      · intro sid h
        simp only [startBatch, if_pos ha] at h ⊢
        exact (ih st).2 sid h
    · constructor
      · intro k h
        simp only [startBatch, if_neg ha]
        exact (ih _).1 k (call_executor_inprog_mono env cfg st e ord k h)
      · intro sid hsid
        simp only [startBatch, if_neg ha] at hsid ⊢
        cases hc : (call_executor env cfg st e ord).1 with
        | none =>
          simp only [hc] at hsid
          exact (ih _).2 sid hsid
        | some sid0 =>
          simp only [hc] at hsid
          by_cases he : sid0 = ""
          · rw [if_pos he] at hsid
            exact (ih _).2 sid hsid
          · rw [if_neg he] at hsid
            rcases List.mem_cons.mp hsid with heq | hmem
            · subst heq
              exact (ih _).1 sid (call_executor_inprog_new env cfg st e ord sid hc)
            · exact (ih _).2 sid hmem

theorem findAccepted_none (st : AgentState) :
    ∀ sids : List String, (∀ sid ∈ sids, InProgAt st sid) →
    findAccepted st sids = none := by
  intro sids
  induction sids with
  | nil => intro _; rfl
  | cons sid rest ih =>
    intro h
    obtain ⟨s, hs, hr⟩ := h sid (List.mem_cons_self sid rest)
    simp only [findAccepted, hs]
    rw [hr, if_neg (fun hc => CallResult.noConfusion hc)]
    exact ih fun x hx => h x (List.mem_cons_of_mem _ hx)

theorem batchLoop_none (env : Env) (cfg : Config) (ord : OrderInfo) (w : Nat) :
    ∀ (fuel : Nat) (st : AgentState) (executors : List ExecutorInfo),
    (batchLoop env cfg ord w fuel st executors).1 = none := by
  intro fuel
  induction fuel with
  | zero => intro st executors; rfl
  | succ n ih =>
    intro st executors
    cases executors with
    | nil => rfl
    | cons e rest =>
      have hf : findAccepted (startBatch env cfg ord st ((e :: rest).take w)).2.1
          (startBatch env cfg ord st ((e :: rest).take w)).1 = none :=
        findAccepted_none _ _ (startBatch_inprog env cfg ord ((e :: rest).take w) st).2
      simp only [batchLoop, hf]
      exact ih _ _

theorem startBatch_effects_available (env : Env) (cfg : Config) (ord : OrderInfo) :
    ∀ (batch : List ExecutorInfo) (st : AgentState) (ex : ExecutorInfo),
    Effect.callStart ex ∈ (startBatch env cfg ord st batch).2.2 →
    ex.is_available = true := by
  intro batch
  induction batch with
  | nil =>
    intro st ex h
    simp [startBatch] at h
  | cons e rest ih =>
    intro st ex h
    by_cases ha : e.is_available = false
    · simp only [startBatch, if_pos ha] at h
      exact ih st ex h
    · simp only [startBatch, if_neg ha] at h
      rw [call_executor_effects] at h
      rcases List.mem_append.mp h with h1 | h2
      · rcases List.mem_singleton.mp h1 with heq
        rcases Effect.callStart.inj heq with rfl
        simpa using ha
      · exact ih _ ex h2

theorem batchLoop_effects_available (env : Env) (cfg : Config) (ord : OrderInfo) (w : Nat) :
    ∀ (fuel : Nat) (st : AgentState) (executors : List ExecutorInfo) (ex : ExecutorInfo),
    Effect.callStart ex ∈ (batchLoop env cfg ord w fuel st executors).2.2 →
    ex.is_available = true := by
  intro fuel
  induction fuel with
  | zero =>
    intro st executors ex h
    simp [batchLoop] at h
  | succ n ih =>
    intro st executors ex h
    cases executors with
    | nil => simp [batchLoop] at h
    | cons e rest =>
      simp only [batchLoop] at h
      cases hf : findAccepted (startBatch env cfg ord st ((e :: rest).take w)).2.1
          (startBatch env cfg ord st ((e :: rest).take w)).1 with
      | some ex0 =>
        simp only [hf] at h
        exact startBatch_effects_available env cfg ord _ st ex h
      | none =>
        simp only [hf] at h
        rcases List.mem_append.mp h with h1 | h2
        · exact startBatch_effects_available env cfg ord _ st ex h1
        · exact ih _ _ ex h2

/-- The per-batch inspection step as the spec words it: the first session
id (in list order) whose session exists and has result accepted yields
its executor.  Reference definition for comparison with `findAccepted`. -/
def firstAcceptedSpec (st : AgentState) (sids : List String) : Option ExecutorInfo :=
  (sids.filterMap fun sid =>
    match mapGet sid st.sessions with
    | some s => if s.result = CallResult.accepted then some s.executor else none
    | none => none).head?

theorem findAccepted_eq_spec (st : AgentState) :
    ∀ sids : List String, findAccepted st sids = firstAcceptedSpec st sids := by
  intro sids
  induction sids with
  | nil => rfl
  | cons sid rest ih =>
    unfold findAccepted firstAcceptedSpec
    cases h : mapGet sid st.sessions with
    | none =>
      simp only [h, List.filterMap_cons]
      exact ih
    | some s =>
      by_cases hr : s.result = CallResult.accepted
      · simp [h, hr, List.filterMap_cons]
      · simp only [h, hr, List.filterMap_cons, if_neg hr]
        exact ih

/-- C9: `call_executors_for_order` consumes the executor list in batches
of the given width (modelled with fuel `executors.length`, sufficient for
any width ≥ 1, since Python's `range` step must be positive); it never
starts a call to an executor whose availability flag is false (no
`callStart` trace event for an unavailable executor); each batch's
inspection step returns the first session id in list order whose session
result is accepted (equivalence with the spec-side reference
`firstAcceptedSpec`); and because sessions are created in-progress and
inspected synchronously right after the batch's call starts, no batch
ever yields an acceptance, so the function returns none after exhausting
the list — matching the claim's no-acceptance clause. -/
theorem batch_calling_structure :
    (∀ (env : Env) (cfg : Config) (st : AgentState) (executors : List ExecutorInfo)
        (ord : OrderInfo) (w : Nat) (ex : ExecutorInfo), 1 ≤ w →
      Effect.callStart ex ∈ (call_executors_for_order env cfg st executors ord w).2.2 →
      ex.is_available = true) ∧
    (∀ (st : AgentState) (sids : List String),
      findAccepted st sids = firstAcceptedSpec st sids) ∧
    (∀ (env : Env) (cfg : Config) (st : AgentState) (executors : List ExecutorInfo)
        (ord : OrderInfo) (w : Nat), 1 ≤ w →
      (call_executors_for_order env cfg st executors ord w).1 = none) :=
  ⟨fun env cfg st executors ord w ex _ h =>
     batchLoop_effects_available env cfg ord w executors.length st executors ex h,
   fun st sids => findAccepted_eq_spec st sids,
   fun env cfg st executors ord w _ =>
     batchLoop_none env cfg ord w executors.length st executors⟩

/-- C9 witness: with one available executor and width 1, the only call
start in the trace is to that available executor, the inspection step at
a concrete state agrees with the reference, and the loop returns none. -/
theorem batch_calling_structure_witness :
    testExecutor.is_available = true ∧
    findAccepted testState ["c1"] = firstAcceptedSpec testState ["c1"] ∧
    (call_executors_for_order testEnv testCfg ⟨[], false⟩ [testExecutor] testOrder 1).1 =
      none :=
  ⟨batch_calling_structure.1 testEnv testCfg ⟨[], false⟩ [testExecutor] testOrder 1
      testExecutor Nat.le.refl (List.Mem.head _),
   batch_calling_structure.2.1 testState ["c1"],
   batch_calling_structure.2.2 testEnv testCfg ⟨[], false⟩ [testExecutor] testOrder 1
      Nat.le.refl⟩
